import Mathlib

/-
Verification of the line-rewrite algorithm of
src/utils/plugins/modules/manage_hosts.py (function run_module).

The module reads a hosts file as a list of lines, performs a single
forward pass over the lines (lines 93-118 of the source), then applies
the post-loop adjustments (lines 120-141) and finally writes the updated
lines back unless running in check mode (lines 144-146).

The file system is modelled as an optional list of lines: the read at
line 87 raises a not-found error when the file is absent (handler at
lines 151-152).
-/

set_option autoImplicit false

namespace ManageHosts

/-- Whitespace characters recognised by the Python methods str.split,
str.strip with no arguments (ASCII range). -/
def pyIsSpace (c : Char) : Bool :=
  c = ' ' || c = '\t' || c = '\n' || c = '\r' || c = '\x0b' || c = '\x0c'

/-- Worker for pySplit: walks the characters keeping the (reversed)
current token in the accumulator. -/
def splitAux : List Char → List Char → List (List Char)
  | [], acc => if acc = [] then [] else [acc.reverse]
  | c :: cs, acc =>
    if pyIsSpace c then
      if acc = [] then splitAux cs [] else acc.reverse :: splitAux cs []
    else
      splitAux cs (c :: acc)

/-- Python str.split() with no arguments: split on runs of whitespace,
returning the (nonempty) tokens. Used at lines 95 and 134 of the source. -/
def pySplit (s : String) : List String :=
  (splitAux s.data []).map (fun cs => String.mk cs)

/-- Python str.strip() with no arguments: remove leading and trailing
whitespace. Used at lines 97-98 and 135 of the source. -/
def pyStrip (s : String) : String :=
  String.mk (((s.data.dropWhile pyIsSpace).reverse.dropWhile pyIsSpace).reverse)

/-- Python str.lower(), character by character (ASCII case folding). -/
def pyLower (s : String) : String :=
  String.mk (s.data.map Char.toLower)

/-- The state parameter of the module: choices=["present", "absent"]
(line 68 of the source). -/
inductive HostState where
  | present
  | absent
  deriving DecidableEq, Repr

/-- The invocation parameters: hostname, ip, state (lines 65-77) plus the
check-mode flag supplied by the framework (module.check_mode). -/
structure Request where
  hostname : String
  ip : String
  state : HostState
  checkMode : Bool
  deriving DecidableEq, Repr

/-- The result dictionary: result = dict(changed=False, message="")
(line 71 of the source). -/
structure ModuleResult where
  changed : Bool
  message : String
  deriving DecidableEq, Repr

/-- The mutable state of the loop at lines 93-118: updated_lines,
found_hostname, matching_line_exists and the result dictionary. -/
structure LoopState where
  updatedLines : List String
  foundHostname : Bool
  matchingLineExists : Bool
  result : ModuleResult
  deriving DecidableEq, Repr

/-- The newly formatted line written at lines 112 and 123 of the source,
an f-string interpolating ip, a tab, hostname and a newline. -/
def fmtLine (req : Request) : String :=
  req.ip ++ "\t" ++ req.hostname ++ "\n"

/-- Line-format test at line 96 of the source: len(parts) >= 2. -/
def isWellFormed (line : String) : Bool :=
  decide (2 ≤ (pySplit line).length)

/-- parts[0].strip() at line 97 of the source. -/
def lineIp (line : String) : String :=
  pyStrip ((pySplit line).getD 0 "")

/-- parts[1].strip() at line 98 of the source. -/
def lineHost (line : String) : String :=
  pyStrip ((pySplit line).getD 1 "")

/-- The match condition of the removal filter at lines 134-135 of the
source: len(line.split()) >= 2 and line.split()[1].strip().lower() equals
hostname.lower(). The same condition guards the loop branch at lines
96 and 101. -/
def matchesHost (req : Request) (line : String) : Bool :=
  isWellFormed line && decide (pyLower (lineHost line) = pyLower req.hostname)

/-- One iteration of the loop at lines 93-118 of the source. -/
def processLine (req : Request) (st : LoopState) (line : String) : LoopState :=
  if isWellFormed line then
    if pyLower (lineHost line) = pyLower req.hostname then
      if lineIp line = req.ip then
        { updatedLines := st.updatedLines ++ [line]
          foundHostname := true
          matchingLineExists := true
          result := ⟨false, "IP / Hostname pair exist. No changes made."⟩ }
      else if req.state = HostState.present then
        { updatedLines := st.updatedLines ++ [fmtLine req]
          foundHostname := true
          matchingLineExists := st.matchingLineExists
          result := ⟨true, "IP updated for hostname."⟩ }
      else
        { st with foundHostname := true }
    else
      { st with updatedLines := st.updatedLines ++ [line] }
  else
    st

/-- Initial loop state: updated_lines = [], found_hostname = False,
matching_line_exists = False, result = dict(changed=False, message=""). -/
def initState : LoopState :=
  ⟨[], false, false, ⟨false, ""⟩⟩

/-- The whole loop at lines 93-118 of the source. -/
def loopPass (req : Request) (lines : List String) : LoopState :=
  lines.foldl (processLine req) initState

/-- The post-loop adjustments at lines 120-141 of the source. -/
def afterLoop (req : Request) (st : LoopState) : List String × ModuleResult :=
  let step1 :
      List String × ModuleResult :=
    if req.state = HostState.present ∧ st.foundHostname = false then
      ((if req.checkMode then st.updatedLines else st.updatedLines ++ [fmtLine req]),
       ⟨true, "Hostname added with IP."⟩)
    else
      (st.updatedLines, st.result)
  if req.state = HostState.absent ∧ st.foundHostname = true then
    (step1.1.filter (fun l => !(matchesHost req l)), ⟨true, "Hostname removed."⟩)
  else if req.state = HostState.absent ∧ st.foundHostname = false then
    (step1.1, ⟨step1.2.changed, "Hostname does not exist. No changes made."⟩)
  else
    step1

/-- The computed updated lines and result of run_module on the given file
lines (lines 93-141 of the source). -/
def runOnLines (req : Request) (lines : List String) : List String × ModuleResult :=
  afterLoop req (loopPass req lines)

/-- Full run of run_module against a file modelled as an optional list of
lines. A missing file raises FileNotFoundError at the read (line 87),
handled at lines 151-152; otherwise the updated lines are written back
unless in check mode (lines 144-146) and the result is returned via
exit_json (line 149). The returned pair is (file after the call,
outcome). -/
def applyRequest (req : Request) (fs : Option (List String)) :
    Option (List String) × Except String ModuleResult :=
  match fs with
  | none => (none, Except.error "The specified path does not exist.")
  | some lines =>
    let out := runOnLines req lines
    if req.checkMode then (some lines, Except.ok out.2)
    else (some out.1, Except.ok out.2)

/-- Modelled from the spec and the handler at lines 153-154 of the
source: a run in which the write at lines 144-146 raises an exception
whose text is e (for example a permission or disk error). The general
handler produces the failure message with the underlying error text
appended. In check mode no write is attempted, so no exception occurs. -/
def runWithWriteExc (req : Request) (lines : List String) (e : String) :
    Except String ModuleResult :=
  if req.checkMode then Except.ok (runOnLines req lines).2
  else Except.error ("An unknown error occurred: " ++ e)

/-- Per-line action of the loop on updated_lines: a malformed line is
dropped, a matching line is kept (identical ip) or replaced by the newly
formatted line (state present) or dropped (state absent), and every other
line is kept. -/
def lineOut (req : Request) (line : String) : Option String :=
  if isWellFormed line then
    if pyLower (lineHost line) = pyLower req.hostname then
      if lineIp line = req.ip then some line
      else if req.state = HostState.present then some (fmtLine req)
      else none
    else some line
  else none

/-- Per-line action of the loop on the result dictionary: the assignment
performed by the iteration, when any. -/
def lineResult (req : Request) (line : String) : Option ModuleResult :=
  if isWellFormed line then
    if pyLower (lineHost line) = pyLower req.hostname then
      if lineIp line = req.ip then
        some ⟨false, "IP / Hostname pair exist. No changes made."⟩
      else if req.state = HostState.present then
        some ⟨true, "IP updated for hostname."⟩
      else none
    else none
  else none

/-- Last element of a list, or a default: the value left in a variable by
a sequence of assignments. -/
def lastD {α : Type} (l : List α) (d : α) : α :=
  l.foldl (fun _ x => x) d

theorem lastD_nil {α : Type} (d : α) : lastD [] d = d := rfl

theorem lastD_cons {α : Type} (a : α) (l : List α) (d : α) :
    lastD (a :: l) d = lastD l a := rfl

theorem lastD_all_eq {α : Type} (c : α) :
    ∀ (M : List α) (d : α), M ≠ [] → (∀ x ∈ M, x = c) → lastD M d = c := by
  intro M
  induction M with
  | nil => intro d h _; exact absurd rfl h
  | cons a M' ih =>
    intro d _ hall
    rw [lastD_cons]
    cases hM : M' with
    | nil => subst hM; exact hall a (by simp)
    | cons b M'' =>
      subst hM
      exact ih a (by simp) (fun x hx => hall x (List.mem_cons_of_mem a hx))

theorem filterMap_id_of_mem {α : Type} (f : α → Option α) :
    ∀ L : List α, (∀ x ∈ L, f x = some x) → L.filterMap f = L := by
  intro L
  induction L with
  | nil => intro _; rfl
  | cons a L' ih =>
    intro h
    rw [List.filterMap_cons, h a (List.mem_cons_self a L')]
    rw [ih (fun x hx => h x (List.mem_cons_of_mem a hx))]

theorem dropWhile_no_ws (l : List Char) (h : ∀ c ∈ l, pyIsSpace c = false) :
    l.dropWhile pyIsSpace = l := by
  cases l with
  | nil => rfl
  | cons c cs => simp [List.dropWhile_cons, h c (List.mem_cons_self c cs)]

theorem mk_data (s : String) : String.mk s.data = s := rfl

theorem pyStrip_no_ws (s : String) (h : ∀ c ∈ s.data, pyIsSpace c = false) :
    pyStrip s = s := by
  unfold pyStrip
  rw [dropWhile_no_ws s.data h,
    dropWhile_no_ws _ (fun c hc => h c (List.mem_reverse.mp hc)),
    List.reverse_reverse]

theorem data_ne_nil (s : String) (h : s ≠ "") : s.data ≠ [] := by
  intro hd
  exact h (String.ext (by simpa using hd))

theorem splitAux_append_no_ws (l1 : List Char)
    (h : ∀ c ∈ l1, pyIsSpace c = false) :
    ∀ (rest acc : List Char),
      splitAux (l1 ++ rest) acc = splitAux rest (l1.reverse ++ acc) := by
  induction l1 with
  | nil => intro rest acc; simp
  | cons c cs ih =>
    intro rest acc
    have hc : pyIsSpace c = false := h c (List.mem_cons_self c cs)
    simp only [List.cons_append, splitAux, hc, Bool.false_eq_true, if_false]
    show splitAux (cs ++ rest) (c :: acc) = _
    rw [ih (fun d hd => h d (List.mem_cons_of_mem c hd)) rest (c :: acc)]
    simp

theorem pySplit_fmtLine (req : Request) (hh : req.hostname ≠ "") (hi : req.ip ≠ "")
    (hhw : ∀ c ∈ req.hostname.data, pyIsSpace c = false)
    (hiw : ∀ c ∈ req.ip.data, pyIsSpace c = false) :
    pySplit (fmtLine req) = [req.ip, req.hostname] := by
  have hdata : (fmtLine req).data =
      req.ip.data ++ ('\t' :: (req.hostname.data ++ ['\n'])) := by
    show (req.ip ++ "\t" ++ req.hostname ++ "\n").data = _
    rw [String.data_append, String.data_append, String.data_append]
    simp
  unfold pySplit
  rw [hdata, splitAux_append_no_ws req.ip.data hiw]
  have hip : req.ip.data.reverse ++ [] ≠ [] := by
    simp [data_ne_nil req.ip hi]
  simp only [splitAux, pyIsSpace, hip, if_neg, if_false]
  rw [splitAux_append_no_ws req.hostname.data hhw ['\n'] []]
  have hhost : req.hostname.data.reverse ++ [] ≠ [] := by
    simp [data_ne_nil req.hostname hh]
  simp only [splitAux, hhost, if_neg, if_false]
  simp [pyIsSpace, mk_data]

theorem lineIp_fmtLine (req : Request) (hh : req.hostname ≠ "") (hi : req.ip ≠ "")
    (hhw : ∀ c ∈ req.hostname.data, pyIsSpace c = false)
    (hiw : ∀ c ∈ req.ip.data, pyIsSpace c = false) :
    lineIp (fmtLine req) = req.ip := by
  rw [lineIp, pySplit_fmtLine req hh hi hhw hiw]
  exact pyStrip_no_ws req.ip hiw

theorem lineHost_fmtLine (req : Request) (hh : req.hostname ≠ "") (hi : req.ip ≠ "")
    (hhw : ∀ c ∈ req.hostname.data, pyIsSpace c = false)
    (hiw : ∀ c ∈ req.ip.data, pyIsSpace c = false) :
    lineHost (fmtLine req) = req.hostname := by
  rw [lineHost, pySplit_fmtLine req hh hi hhw hiw]
  exact pyStrip_no_ws req.hostname hhw

theorem isWellFormed_fmtLine (req : Request) (hh : req.hostname ≠ "") (hi : req.ip ≠ "")
    (hhw : ∀ c ∈ req.hostname.data, pyIsSpace c = false)
    (hiw : ∀ c ∈ req.ip.data, pyIsSpace c = false) :
    isWellFormed (fmtLine req) = true := by
  rw [isWellFormed, pySplit_fmtLine req hh hi hhw hiw]
  simp

theorem matchesHost_fmtLine (req : Request) (hh : req.hostname ≠ "") (hi : req.ip ≠ "")
    (hhw : ∀ c ∈ req.hostname.data, pyIsSpace c = false)
    (hiw : ∀ c ∈ req.ip.data, pyIsSpace c = false) :
    matchesHost req (fmtLine req) = true := by
  rw [matchesHost, isWellFormed_fmtLine req hh hi hhw hiw,
    lineHost_fmtLine req hh hi hhw hiw]
  simp

theorem lineOut_fmtLine (req : Request) (hh : req.hostname ≠ "") (hi : req.ip ≠ "")
    (hhw : ∀ c ∈ req.hostname.data, pyIsSpace c = false)
    (hiw : ∀ c ∈ req.ip.data, pyIsSpace c = false) :
    lineOut req (fmtLine req) = some (fmtLine req) := by
  rw [lineOut, lineIp_fmtLine req hh hi hhw hiw, lineHost_fmtLine req hh hi hhw hiw,
    isWellFormed_fmtLine req hh hi hhw hiw]
  simp

theorem lineResult_fmtLine (req : Request) (hh : req.hostname ≠ "") (hi : req.ip ≠ "")
    (hhw : ∀ c ∈ req.hostname.data, pyIsSpace c = false)
    (hiw : ∀ c ∈ req.ip.data, pyIsSpace c = false) :
    lineResult req (fmtLine req) =
      some ⟨false, "IP / Hostname pair exist. No changes made."⟩ := by
  rw [lineResult, lineIp_fmtLine req hh hi hhw hiw, lineHost_fmtLine req hh hi hhw hiw,
    isWellFormed_fmtLine req hh hi hhw hiw]
  simp

theorem processLine_updatedLines (req : Request) (st : LoopState) (line : String) :
    (processLine req st line).updatedLines =
      st.updatedLines ++ (lineOut req line).toList := by
  by_cases h1 : isWellFormed line = true <;>
    by_cases h2 : pyLower (lineHost line) = pyLower req.hostname <;>
      by_cases h3 : lineIp line = req.ip <;>
        by_cases h4 : req.state = HostState.present <;>
          simp [processLine, lineOut, h1, h2, h3, h4]

theorem processLine_found (req : Request) (st : LoopState) (line : String) :
    (processLine req st line).foundHostname =
      (st.foundHostname || matchesHost req line) := by
  by_cases h1 : isWellFormed line = true <;>
    by_cases h2 : pyLower (lineHost line) = pyLower req.hostname <;>
      by_cases h3 : lineIp line = req.ip <;>
        by_cases h4 : req.state = HostState.present <;>
          simp [processLine, matchesHost, h1, h2, h3, h4]

theorem processLine_result (req : Request) (st : LoopState) (line : String) :
    (processLine req st line).result = (lineResult req line).getD st.result := by
  by_cases h1 : isWellFormed line = true <;>
    by_cases h2 : pyLower (lineHost line) = pyLower req.hostname <;>
      by_cases h3 : lineIp line = req.ip <;>
        by_cases h4 : req.state = HostState.present <;>
          simp [processLine, lineResult, h1, h2, h3, h4]

theorem processLine_not_wf (req : Request) (st : LoopState) (line : String)
    (h : isWellFormed line = false) : processLine req st line = st := by
  simp [processLine, h]

theorem foldl_updatedLines (req : Request) (lines : List String) :
    ∀ st : LoopState, (lines.foldl (processLine req) st).updatedLines =
      st.updatedLines ++ lines.filterMap (lineOut req) := by
  induction lines with
  | nil => intro st; simp
  | cons l ls ih =>
    intro st
    rw [List.foldl_cons, ih, processLine_updatedLines]
    cases h : lineOut req l <;> simp [List.filterMap_cons, h]

theorem foldl_found (req : Request) (lines : List String) :
    ∀ st : LoopState, (lines.foldl (processLine req) st).foundHostname =
      (st.foundHostname || lines.any (matchesHost req)) := by
  induction lines with
  | nil => intro st; simp
  | cons l ls ih =>
    intro st
    rw [List.foldl_cons, ih, processLine_found]
    simp [Bool.or_assoc]

theorem foldl_result (req : Request) (lines : List String) :
    ∀ st : LoopState, (lines.foldl (processLine req) st).result =
      lastD (lines.filterMap (lineResult req)) st.result := by
  induction lines with
  | nil => intro st; simp [lastD_nil]
  | cons l ls ih =>
    intro st
    rw [List.foldl_cons, ih, processLine_result]
    cases h : lineResult req l <;>
      simp [List.filterMap_cons, h, lastD_cons]

theorem loopPass_updatedLines (req : Request) (lines : List String) :
    (loopPass req lines).updatedLines = lines.filterMap (lineOut req) := by
  rw [loopPass, foldl_updatedLines]
  rfl

theorem loopPass_found (req : Request) (lines : List String) :
    (loopPass req lines).foundHostname = lines.any (matchesHost req) := by
  rw [loopPass, foldl_found]
  rfl

theorem loopPass_result (req : Request) (lines : List String) :
    (loopPass req lines).result =
      lastD (lines.filterMap (lineResult req)) ⟨false, ""⟩ := by
  rw [loopPass, foldl_result]
  rfl

theorem afterLoop_present_found (req : Request) (st : LoopState)
    (hs : req.state = HostState.present) (hf : st.foundHostname = true) :
    afterLoop req st = (st.updatedLines, st.result) := by
  simp [afterLoop, hs, hf]

theorem afterLoop_present_notfound (req : Request) (st : LoopState)
    (hs : req.state = HostState.present) (hf : st.foundHostname = false)
    (hc : req.checkMode = false) :
    afterLoop req st =
      (st.updatedLines ++ [fmtLine req], ⟨true, "Hostname added with IP."⟩) := by
  simp [afterLoop, hs, hf, hc]

theorem afterLoop_present_notfound_check (req : Request) (st : LoopState)
    (hs : req.state = HostState.present) (hf : st.foundHostname = false)
    (hc : req.checkMode = true) :
    afterLoop req st = (st.updatedLines, ⟨true, "Hostname added with IP."⟩) := by
  simp [afterLoop, hs, hf, hc]

theorem afterLoop_absent_found (req : Request) (st : LoopState)
    (hs : req.state = HostState.absent) (hf : st.foundHostname = true) :
    afterLoop req st =
      (st.updatedLines.filter (fun l => !(matchesHost req l)),
       ⟨true, "Hostname removed."⟩) := by
  simp [afterLoop, hs, hf]

theorem afterLoop_absent_notfound (req : Request) (st : LoopState)
    (hs : req.state = HostState.absent) (hf : st.foundHostname = false) :
    afterLoop req st =
      (st.updatedLines,
       ⟨st.result.changed, "Hostname does not exist. No changes made."⟩) := by
  simp [afterLoop, hs, hf]

theorem applyRequest_nocheck (req : Request) (lines : List String)
    (hc : req.checkMode = false) :
    applyRequest req (some lines) =
      (some (runOnLines req lines).1, Except.ok (runOnLines req lines).2) := by
  simp [applyRequest, hc]

theorem applyRequest_check (req : Request) (lines : List String)
    (hc : req.checkMode = true) :
    applyRequest req (some lines) =
      (some lines, Except.ok (runOnLines req lines).2) := by
  simp [applyRequest, hc]

theorem matchesHost_true_iff (req : Request) (x : String) :
    matchesHost req x = true ↔
      (isWellFormed x = true ∧ pyLower (lineHost x) = pyLower req.hostname) := by
  simp [matchesHost]

theorem nonmatch_hosts (req : Request) (x : String) (h1 : isWellFormed x = true)
    (hm : matchesHost req x = false) :
    ¬(pyLower (lineHost x) = pyLower req.hostname) := by
  intro hcon
  rw [matchesHost, h1] at hm
  simp [hcon] at hm

theorem lineOut_self_of_nonmatch (req : Request) (x : String)
    (h1 : isWellFormed x = true) (hm : matchesHost req x = false) :
    lineOut req x = some x := by
  simp [lineOut, h1, nonmatch_hosts req x h1 hm]

theorem lineOut_self_of_exact (req : Request) (x : String)
    (hm : matchesHost req x = true) (hip : lineIp x = req.ip) :
    lineOut req x = some x := by
  obtain ⟨h1, h2⟩ := (matchesHost_true_iff req x).mp hm
  simp [lineOut, h1, h2, hip]

theorem lineResult_none_of_nonmatch (req : Request) (x : String)
    (hm : matchesHost req x = false) : lineResult req x = none := by
  by_cases h1 : isWellFormed x = true
  · simp [lineResult, h1, nonmatch_hosts req x h1 hm]
  · simp [lineResult, h1]

theorem lineResult_pair_of_exact (req : Request) (x : String)
    (hm : matchesHost req x = true) (hip : lineIp x = req.ip) :
    lineResult req x =
      some ⟨false, "IP / Hostname pair exist. No changes made."⟩ := by
  obtain ⟨h1, h2⟩ := (matchesHost_true_iff req x).mp hm
  simp [lineResult, h1, h2, hip]

theorem lineResult_update_of_match (req : Request) (x : String)
    (hm : matchesHost req x = true) (hip : ¬(lineIp x = req.ip))
    (hs : req.state = HostState.present) :
    lineResult req x = some ⟨true, "IP updated for hostname."⟩ := by
  obtain ⟨h1, h2⟩ := (matchesHost_true_iff req x).mp hm
  simp [lineResult, h1, h2, hip, hs]

theorem lineOut_update_of_match (req : Request) (x : String)
    (hm : matchesHost req x = true) (hip : ¬(lineIp x = req.ip))
    (hs : req.state = HostState.present) :
    lineOut req x = some (fmtLine req) := by
  obtain ⟨h1, h2⟩ := (matchesHost_true_iff req x).mp hm
  simp [lineOut, h1, h2, hip, hs]

theorem lineOut_cases (req : Request) (l x : String)
    (hs : req.state = HostState.present) (h : lineOut req l = some x) :
    (x = l ∧ matchesHost req l = false ∧ isWellFormed l = true) ∨
    (x = l ∧ matchesHost req l = true ∧ lineIp l = req.ip) ∨
    x = fmtLine req := by
  by_cases h1 : isWellFormed l = true
  · by_cases h2 : pyLower (lineHost l) = pyLower req.hostname
    · by_cases h3 : lineIp l = req.ip
      · refine Or.inr (Or.inl ⟨?_, (matchesHost_true_iff req l).mpr ⟨h1, h2⟩, h3⟩)
        simp [lineOut, h1, h2, h3] at h
        exact h.symm
      · refine Or.inr (Or.inr ?_)
        simp [lineOut, h1, h2, h3, hs] at h
        exact h.symm
    · refine Or.inl ⟨?_, ?_, h1⟩
      · simp [lineOut, h1, h2] at h
        exact h.symm
      · rw [matchesHost, h1]
        simp [h2]
  · simp [lineOut, h1] at h

theorem lineOut_some_wf (req : Request) (l x : String)
    (h : lineOut req l = some x) :
    2 ≤ (pySplit x).length ∨ x = fmtLine req := by
  by_cases h1 : isWellFormed l = true
  · by_cases h2 : pyLower (lineHost l) = pyLower req.hostname
    · by_cases h3 : lineIp l = req.ip
      · simp [lineOut, h1, h2, h3] at h
        subst h
        exact Or.inl (by simpa [isWellFormed] using h1)
      · by_cases h4 : req.state = HostState.present
        · simp [lineOut, h1, h2, h3, h4] at h
          exact Or.inr h.symm
        · simp [lineOut, h1, h2, h3, h4] at h
    · simp [lineOut, h1, h2] at h
      subst h
      exact Or.inl (by simpa [isWellFormed] using h1)
  · simp [lineOut, h1] at h

theorem filterMap_ext_mem {α β : Type} (f g : α → Option β) :
    ∀ L : List α, (∀ x ∈ L, f x = g x) → L.filterMap f = L.filterMap g := by
  intro L
  induction L with
  | nil => intro _; rfl
  | cons a L' ih =>
    intro h
    rw [List.filterMap_cons, List.filterMap_cons, h a (List.mem_cons_self a L'),
      ih (fun x hx => h x (List.mem_cons_of_mem a hx))]

theorem filterMap_lineOut_no_match (req : Request) :
    ∀ lines : List String, (∀ l ∈ lines, matchesHost req l = false) →
      lines.filterMap (lineOut req) = lines.filter isWellFormed := by
  intro lines
  induction lines with
  | nil => intro _; rfl
  | cons l ls ih =>
    intro h
    have hl : matchesHost req l = false := h l (List.mem_cons_self l ls)
    have hrec := ih (fun x hx => h x (List.mem_cons_of_mem l hx))
    by_cases h1 : isWellFormed l = true
    · rw [List.filterMap_cons, lineOut_self_of_nonmatch req l h1 hl]
      simp [List.filter_cons, h1, hrec]
    · have h1' : isWellFormed l = false := by simpa using h1
      rw [List.filterMap_cons]
      simp [lineOut, h1', List.filter_cons, hrec]

theorem loopPass_result_of_no_match (req : Request) (lines : List String)
    (h : ∀ l ∈ lines, matchesHost req l = false) :
    (loopPass req lines).result = ⟨false, ""⟩ := by
  rw [loopPass_result]
  have hnil : lines.filterMap (lineResult req) = [] :=
    List.filterMap_eq_nil_iff.mpr
      (fun l hl => lineResult_none_of_nonmatch req l (h l hl))
  rw [hnil, lastD_nil]

theorem filter_filterMap_absent (req : Request) (hs : req.state = HostState.absent) :
    ∀ lines : List String,
      (lines.filterMap (lineOut req)).filter (fun l => !(matchesHost req l)) =
        lines.filterMap
          (fun l =>
            if isWellFormed l && !(matchesHost req l) then some l else none) := by
  intro lines
  induction lines with
  | nil => rfl
  | cons l ls ih =>
    rw [List.filterMap_cons, List.filterMap_cons]
    by_cases h1 : isWellFormed l = true
    · by_cases h2 : pyLower (lineHost l) = pyLower req.hostname
      · have hm : matchesHost req l = true := (matchesHost_true_iff req l).mpr ⟨h1, h2⟩
        by_cases h3 : lineIp l = req.ip
        · rw [lineOut_self_of_exact req l hm h3]
          simp [List.filter_cons, hm, h1, ih]
        · have : lineOut req l = none := by
            simp [lineOut, h1, h2, h3, hs]
          rw [this]
          simp [hm, h1, ih]
      · have hm : matchesHost req l = false := by
          rw [matchesHost, h1]; simp [h2]
        rw [lineOut_self_of_nonmatch req l h1 hm]
        simp [List.filter_cons, hm, h1, ih]
    · have h1' : isWellFormed l = false := by simpa using h1
      have : lineOut req l = none := by simp [lineOut, h1']
      rw [this]
      simp [h1', ih]

theorem runOnLines_present_out (req : Request) (lines : List String)
    (hs : req.state = HostState.present) (hc : req.checkMode = false) :
    (runOnLines req lines).1 =
      lines.filterMap (lineOut req) ++
        (if lines.any (matchesHost req) = true then [] else [fmtLine req]) := by
  by_cases hf : lines.any (matchesHost req) = true
  · rw [runOnLines,
      afterLoop_present_found req _ hs (by rw [loopPass_found]; exact hf)]
    simp [loopPass_updatedLines, hf]
  · have hf' : lines.any (matchesHost req) = false := by simpa using hf
    rw [runOnLines,
      afterLoop_present_notfound req _ hs (by rw [loopPass_found]; exact hf') hc]
    simp [loopPass_updatedLines, hf']

theorem runOnLines_mem (req : Request) (lines : List String) :
    ∀ x ∈ (runOnLines req lines).1,
      (∃ l₀, l₀ ∈ lines ∧ lineOut req l₀ = some x) ∨ x = fmtLine req := by
  intro x hx
  rw [runOnLines] at hx
  cases hst : req.state with
  | present =>
    by_cases hf : (loopPass req lines).foundHostname = true
    · rw [afterLoop_present_found req _ hst hf, loopPass_updatedLines] at hx
      exact Or.inl (List.mem_filterMap.mp hx)
    · have hf' : (loopPass req lines).foundHostname = false := by simpa using hf
      by_cases hcm : req.checkMode = true
      · rw [afterLoop_present_notfound_check req _ hst hf' hcm,
          loopPass_updatedLines] at hx
        exact Or.inl (List.mem_filterMap.mp hx)
      · have hcm' : req.checkMode = false := by simpa using hcm
        rw [afterLoop_present_notfound req _ hst hf' hcm',
          loopPass_updatedLines] at hx
        rcases List.mem_append.mp hx with hx | hx
        · exact Or.inl (List.mem_filterMap.mp hx)
        · exact Or.inr (by simpa using hx)
  | absent =>
    by_cases hf : (loopPass req lines).foundHostname = true
    · rw [afterLoop_absent_found req _ hst hf, loopPass_updatedLines] at hx
      exact Or.inl (List.mem_filterMap.mp (List.mem_filter.mp hx).1)
    · have hf' : (loopPass req lines).foundHostname = false := by simpa using hf
      rw [afterLoop_absent_notfound req _ hst hf', loopPass_updatedLines] at hx
      exact Or.inl (List.mem_filterMap.mp hx)

theorem runOnLines_absent_ip (hostname ip1 ip2 : String) (check : Bool)
    (lines : List String) :
    runOnLines ⟨hostname, ip1, HostState.absent, check⟩ lines =
      runOnLines ⟨hostname, ip2, HostState.absent, check⟩ lines := by
  by_cases hf : lines.any (matchesHost ⟨hostname, ip1, HostState.absent, check⟩) = true
  · have hf2 : lines.any (matchesHost ⟨hostname, ip2, HostState.absent, check⟩) = true := hf
    rw [runOnLines, runOnLines,
      afterLoop_absent_found _ _ rfl (by rw [loopPass_found]; exact hf),
      afterLoop_absent_found _ _ rfl (by rw [loopPass_found]; exact hf2),
      loopPass_updatedLines, loopPass_updatedLines,
      filter_filterMap_absent _ rfl lines, filter_filterMap_absent _ rfl lines]
    rfl
  · have hf1 : lines.any (matchesHost ⟨hostname, ip1, HostState.absent, check⟩) = false := by
      simpa using hf
    have hf2 : lines.any (matchesHost ⟨hostname, ip2, HostState.absent, check⟩) = false := hf1
    have h1 : ∀ l ∈ lines, matchesHost ⟨hostname, ip1, HostState.absent, check⟩ l = false :=
      fun l hl => by simpa using List.any_eq_false.mp hf1 l hl
    have h2 : ∀ l ∈ lines, matchesHost ⟨hostname, ip2, HostState.absent, check⟩ l = false :=
      fun l hl => by simpa using List.any_eq_false.mp hf2 l hl
    rw [runOnLines, runOnLines,
      afterLoop_absent_notfound _ _ rfl (by rw [loopPass_found]; exact hf1),
      afterLoop_absent_notfound _ _ rfl (by rw [loopPass_found]; exact hf2),
      loopPass_updatedLines, loopPass_updatedLines,
      filterMap_lineOut_no_match _ lines h1, filterMap_lineOut_no_match _ lines h2,
      loopPass_result_of_no_match _ lines h1, loopPass_result_of_no_match _ lines h2]

theorem run_present_mem (req : Request) (lines : List String)
    (hs : req.state = HostState.present)
    (hh : req.hostname ≠ "") (hi : req.ip ≠ "")
    (hhw : ∀ c ∈ req.hostname.data, pyIsSpace c = false)
    (hiw : ∀ c ∈ req.ip.data, pyIsSpace c = false) :
    ∀ x ∈ (runOnLines req lines).1,
      lineOut req x = some x ∧
      lineResult req x =
        (if matchesHost req x = true
         then some ⟨false, "IP / Hostname pair exist. No changes made."⟩
         else none) := by
  intro x hx
  have hfmtcase : ∀ hx' : x = fmtLine req,
      lineOut req x = some x ∧
      lineResult req x =
        (if matchesHost req x = true
         then some ⟨false, "IP / Hostname pair exist. No changes made."⟩
         else none) := by
    intro hx'
    subst hx'
    refine ⟨lineOut_fmtLine req hh hi hhw hiw, ?_⟩
    rw [matchesHost_fmtLine req hh hi hhw hiw]
    simp [lineResult_fmtLine req hh hi hhw hiw]
  rcases runOnLines_mem req lines x hx with ⟨l₀, _, hout⟩ | hfmt
  · rcases lineOut_cases req l₀ x hs hout with ⟨he, hm, hw⟩ | ⟨he, hm, hip⟩ | he
    · subst he
      refine ⟨lineOut_self_of_nonmatch req x hw hm, ?_⟩
      rw [hm]
      simp [lineResult_none_of_nonmatch req x hm]
    · subst he
      refine ⟨lineOut_self_of_exact req x hm hip, ?_⟩
      rw [hm]
      simp [lineResult_pair_of_exact req x hm hip]
    · exact hfmtcase he
  · exact hfmtcase hfmt

theorem run_present_found (req : Request) (lines : List String)
    (hs : req.state = HostState.present) (hc : req.checkMode = false)
    (hh : req.hostname ≠ "") (hi : req.ip ≠ "")
    (hhw : ∀ c ∈ req.hostname.data, pyIsSpace c = false)
    (hiw : ∀ c ∈ req.ip.data, pyIsSpace c = false) :
    ((runOnLines req lines).1).any (matchesHost req) = true := by
  rw [runOnLines_present_out req lines hs hc]
  by_cases hf : lines.any (matchesHost req) = true
  · obtain ⟨l, hl, hml⟩ := List.any_eq_true.mp hf
    apply List.any_eq_true.mpr
    by_cases h3 : lineIp l = req.ip
    · exact ⟨l, List.mem_append_left _
        (List.mem_filterMap.mpr ⟨l, hl, lineOut_self_of_exact req l hml h3⟩), hml⟩
    · exact ⟨fmtLine req, List.mem_append_left _
        (List.mem_filterMap.mpr ⟨l, hl, lineOut_update_of_match req l hml h3 hs⟩),
        matchesHost_fmtLine req hh hi hhw hiw⟩
  · have hf' : lines.any (matchesHost req) = false := by simpa using hf
    rw [hf']
    apply List.any_eq_true.mpr
    exact ⟨fmtLine req, by simp, matchesHost_fmtLine req hh hi hhw hiw⟩

theorem run_present_twice (req : Request) (lines : List String)
    (hs : req.state = HostState.present) (hc : req.checkMode = false)
    (hh : req.hostname ≠ "") (hi : req.ip ≠ "")
    (hhw : ∀ c ∈ req.hostname.data, pyIsSpace c = false)
    (hiw : ∀ c ∈ req.ip.data, pyIsSpace c = false) :
    runOnLines req ((runOnLines req lines).1) =
      ((runOnLines req lines).1,
       ⟨false, "IP / Hostname pair exist. No changes made."⟩) := by
  have hmem := run_present_mem req lines hs hh hi hhw hiw
  have hfound := run_present_found req lines hs hc hh hi hhw hiw
  revert hmem hfound
  generalize (runOnLines req lines).1 = out1
  intro hmem hfound
  have hul : (loopPass req out1).updatedLines = out1 := by
    rw [loopPass_updatedLines]
    exact filterMap_id_of_mem _ out1 (fun x hx => (hmem x hx).1)
  have hfd : (loopPass req out1).foundHostname = true := by
    rw [loopPass_found]; exact hfound
  have hres : (loopPass req out1).result =
      ⟨false, "IP / Hostname pair exist. No changes made."⟩ := by
    rw [loopPass_result]
    obtain ⟨x, hxmem, hmx⟩ := List.any_eq_true.mp hfound
    have hx2 := (hmem x hxmem).2
    rw [hmx] at hx2
    simp only [if_true] at hx2
    apply lastD_all_eq
    · exact List.ne_nil_of_mem (List.mem_filterMap.mpr ⟨x, hxmem, hx2⟩)
    · intro r hr
      obtain ⟨y, hymem, hyr⟩ := List.mem_filterMap.mp hr
      have hy2 := (hmem y hymem).2
      by_cases hmy : matchesHost req y = true
      · rw [hmy] at hy2
        simp only [if_true] at hy2
        rw [hy2] at hyr
        exact (Option.some.inj hyr).symm
      · have hmy' : matchesHost req y = false := by simpa using hmy
        rw [hmy'] at hy2
        simp only [Bool.false_eq_true, if_false] at hy2
        rw [hy2] at hyr
        exact Option.noConfusion hyr
  rw [runOnLines, afterLoop_present_found req _ hs hfd, hul, hres]

/-- Claim C1, counterexample to the claim as stated: the blank line of the
input file does not appear in the output line sequence, although it has
fewer than two tokens; the loop at lines 93-118 drops it instead of
passing it through. -/
theorem claim_C1_counterexample :
    ¬("\n" ∈ (runOnLines ⟨"server1", "1.1.1.1", HostState.absent, false⟩ ["\n"]).1) := by
  decide

/-- Claim C1, amended: a line that splits on whitespace into fewer than
two tokens is ignored entirely by the run: removing it from the input
leaves the computed output lines and the result unchanged (in particular
it is dropped from the output, not passed through, and it is never
treated as matching the request hostname). -/
theorem claim_C1 (req : Request) (pre post : List String) (line : String)
    (h : (pySplit line).length < 2) :
    runOnLines req (pre ++ line :: post) = runOnLines req (pre ++ post) := by
  have hwf : isWellFormed line = false :=
    decide_eq_false (Nat.not_le.mpr h)
  rw [runOnLines, runOnLines, loopPass, loopPass, List.foldl_append,
    List.foldl_append, List.foldl_cons, processLine_not_wf req _ line hwf]

/-- Witness for claim C1 at a concrete input. -/
theorem claim_C1_witness :
    (pySplit "\n").length < 2 ∧
    runOnLines ⟨"server1", "1.1.1.1", HostState.present, false⟩
        (["10.0.0.1 web\n"] ++ "\n" :: []) =
      runOnLines ⟨"server1", "1.1.1.1", HostState.present, false⟩
        (["10.0.0.1 web\n"] ++ []) :=
  ⟨by decide, claim_C1 ⟨"server1", "1.1.1.1", HostState.present, false⟩
    ["10.0.0.1 web\n"] [] "\n" (by decide)⟩

/-- Claim C2, counterexample to the claim as stated: with an input file
consisting of one blank line and a request whose hostname matches no
line, the written output is not the input lines followed by the appended
line, because the blank line is dropped. -/
theorem claim_C2_counterexample :
    List.any ["\n"] (matchesHost ⟨"server1", "1.2.3.4", HostState.present, false⟩) = false ∧
    (applyRequest ⟨"server1", "1.2.3.4", HostState.present, false⟩ (some ["\n"])).1 ≠
      some ["\n", "1.2.3.4\tserver1\n"] := by
  decide

/-- Claim C2, amended: for a state=present request whose hostname matches
no input line, not in check mode, the output file is the input lines with
the lines of fewer than two tokens removed, followed by exactly one
appended line of ip, tab, hostname, newline; the result has changed=true
and message "Hostname added with IP." -/
theorem claim_C2 (req : Request) (lines : List String)
    (hs : req.state = HostState.present) (hc : req.checkMode = false)
    (hnf : lines.any (matchesHost req) = false) :
    applyRequest req (some lines) =
      (some (lines.filter isWellFormed ++ [fmtLine req]),
       Except.ok ⟨true, "Hostname added with IP."⟩) := by
  have h0 : ∀ l ∈ lines, matchesHost req l = false :=
    fun l hl => by simpa using List.any_eq_false.mp hnf l hl
  rw [applyRequest_nocheck req lines hc, runOnLines,
    afterLoop_present_notfound req _ hs (by rw [loopPass_found]; exact hnf) hc,
    loopPass_updatedLines, filterMap_lineOut_no_match req lines h0]

/-- Witness for claim C2 at a concrete input. -/
theorem claim_C2_witness :
    applyRequest ⟨"db1", "10.0.0.5", HostState.present, false⟩
        (some ["10.0.0.1 web\n"]) =
      (some (["10.0.0.1 web\n"].filter isWellFormed ++
         [fmtLine ⟨"db1", "10.0.0.5", HostState.present, false⟩]),
       Except.ok ⟨true, "Hostname added with IP."⟩) :=
  claim_C2 ⟨"db1", "10.0.0.5", HostState.present, false⟩ ["10.0.0.1 web\n"]
    rfl rfl (by decide)

/-- Claim C3 (confirmed): for a state=absent request whose hostname
matches the hostname token of at least one input line, not in check mode,
the written output contains no line whose hostname token case-insensitively
equals the request hostname, and the result has changed=true and message
"Hostname removed." -/
theorem claim_C3 (req : Request) (lines : List String)
    (hs : req.state = HostState.absent) (hc : req.checkMode = false)
    (hf : lines.any (matchesHost req) = true) :
    (applyRequest req (some lines)).2 = Except.ok ⟨true, "Hostname removed."⟩ ∧
    (∀ out, (applyRequest req (some lines)).1 = some out →
      ∀ l ∈ out, matchesHost req l = false) := by
  rw [applyRequest_nocheck req lines hc, runOnLines,
    afterLoop_absent_found req _ hs (by rw [loopPass_found]; exact hf)]
  constructor
  · rfl
  · intro out hout l hl
    have heq : (loopPass req lines).updatedLines.filter
        (fun l => !(matchesHost req l)) = out := by
      simpa using hout
    rw [← heq] at hl
    have hmem := (List.mem_filter.mp hl).2
    simpa using hmem

/-- Witness for claim C3 at a concrete input. -/
theorem claim_C3_witness :
    (applyRequest ⟨"web", "10.0.0.9", HostState.absent, false⟩
        (some ["10.0.0.1\tweb\n"])).2 =
      Except.ok ⟨true, "Hostname removed."⟩ :=
  (claim_C3 ⟨"web", "10.0.0.9", HostState.absent, false⟩ ["10.0.0.1\tweb\n"]
    rfl rfl (by decide)).1

/-- Claim C4, counterexample to the claim as stated: the first input line
matches the hostname with a different first token, so the claim asserts
changed=true, but because a later line matches the hostname with the
exact request ip, the loop overwrites the result and the run reports
changed=false. -/
theorem claim_C4_counterexample :
    matchesHost ⟨"server1", "1.1.1.1", HostState.present, false⟩
        "2.2.2.2\tserver1\n" = true ∧
    ¬(lineIp "2.2.2.2\tserver1\n" = "1.1.1.1") ∧
    (runOnLines ⟨"server1", "1.1.1.1", HostState.present, false⟩
        ["2.2.2.2\tserver1\n", "1.1.1.1\tserver1\n"]).2.changed = false := by
  decide

/-- Claim C4, amended: for a state=present request, not in check mode,
where at least one input line matches the hostname and every matching
line's first token differs from the request ip, each matching line is
replaced in place by the newly formatted ip-tab-hostname line (order of
the surviving lines preserved; lines of fewer than two tokens are
dropped), and the result has changed=true with message
"IP updated for hostname." -/
theorem claim_C4 (req : Request) (lines : List String)
    (hs : req.state = HostState.present) (hc : req.checkMode = false)
    (hf : lines.any (matchesHost req) = true)
    (hd : ∀ l ∈ lines, matchesHost req l = true → ¬(lineIp l = req.ip)) :
    applyRequest req (some lines) =
      (some (lines.filterMap (fun l =>
        if isWellFormed l then
          (if matchesHost req l then some (fmtLine req) else some l)
        else none)),
       Except.ok ⟨true, "IP updated for hostname."⟩) := by
  rw [applyRequest_nocheck req lines hc, runOnLines,
    afterLoop_present_found req _ hs (by rw [loopPass_found]; exact hf),
    loopPass_updatedLines, loopPass_result]
  have hul : lines.filterMap (lineOut req) = lines.filterMap (fun l =>
      if isWellFormed l then
        (if matchesHost req l then some (fmtLine req) else some l)
      else none) := by
    apply filterMap_ext_mem
    intro l hl
    by_cases h1 : isWellFormed l = true
    · by_cases hm : matchesHost req l = true
      · rw [lineOut_update_of_match req l hm (hd l hl hm) hs]
        simp [h1, hm]
      · have hm' : matchesHost req l = false := by simpa using hm
        rw [lineOut_self_of_nonmatch req l h1 hm']
        simp [h1, hm']
    · have h1' : isWellFormed l = false := by simpa using h1
      simp [lineOut, h1']
  have hres : lastD (lines.filterMap (lineResult req)) ⟨false, ""⟩ =
      (⟨true, "IP updated for hostname."⟩ : ModuleResult) := by
    obtain ⟨x, hx, hmx⟩ := List.any_eq_true.mp hf
    apply lastD_all_eq
    · exact List.ne_nil_of_mem (List.mem_filterMap.mpr
        ⟨x, hx, lineResult_update_of_match req x hmx (hd x hx hmx) hs⟩)
    · intro r hr
      obtain ⟨y, hy, hyr⟩ := List.mem_filterMap.mp hr
      by_cases hmy : matchesHost req y = true
      · rw [lineResult_update_of_match req y hmy (hd y hy hmy) hs] at hyr
        exact (Option.some.inj hyr).symm
      · rw [lineResult_none_of_nonmatch req y (by simpa using hmy)] at hyr
        exact Option.noConfusion hyr
  rw [hul, hres]

/-- Witness for claim C4 at a concrete input. -/
theorem claim_C4_witness :
    applyRequest ⟨"web", "10.0.0.9", HostState.present, false⟩
        (some ["10.0.0.1\tweb\n"]) =
      (some (["10.0.0.1\tweb\n"].filterMap (fun l =>
        if isWellFormed l then
          (if matchesHost ⟨"web", "10.0.0.9", HostState.present, false⟩ l then
            some (fmtLine ⟨"web", "10.0.0.9", HostState.present, false⟩)
           else some l)
        else none)),
       Except.ok ⟨true, "IP updated for hostname."⟩) :=
  claim_C4 ⟨"web", "10.0.0.9", HostState.present, false⟩ ["10.0.0.1\tweb\n"]
    rfl rfl (by decide) (by decide)

/-- Claim C5, counterexample to the claim as stated: for a state=absent
request whose hostname matches no line, the output is not equal to the
input when the input contains a blank line, because the blank line is
dropped. -/
theorem claim_C5_counterexample :
    List.any ["\n"] (matchesHost ⟨"server1", "1.1.1.1", HostState.absent, false⟩) = false ∧
    (applyRequest ⟨"server1", "1.1.1.1", HostState.absent, false⟩ (some ["\n"])).1 ≠
      some ["\n"] := by
  decide

/-- Claim C5, amended: for a state=absent request whose hostname matches
no input line, not in check mode, the output file equals the input with
the lines of fewer than two tokens removed (hence equals the input
whenever every line has at least two tokens), and the result has
changed=false and message "Hostname does not exist. No changes made." -/
theorem claim_C5 (req : Request) (lines : List String)
    (hs : req.state = HostState.absent) (hc : req.checkMode = false)
    (hnf : lines.any (matchesHost req) = false) :
    applyRequest req (some lines) =
      (some (lines.filter isWellFormed),
       Except.ok ⟨false, "Hostname does not exist. No changes made."⟩) := by
  have h0 : ∀ l ∈ lines, matchesHost req l = false :=
    fun l hl => by simpa using List.any_eq_false.mp hnf l hl
  rw [applyRequest_nocheck req lines hc, runOnLines,
    afterLoop_absent_notfound req _ hs (by rw [loopPass_found]; exact hnf),
    loopPass_updatedLines, filterMap_lineOut_no_match req lines h0,
    loopPass_result_of_no_match req lines h0]

/-- Witness for claim C5 at a concrete input. -/
theorem claim_C5_witness :
    applyRequest ⟨"db1", "10.0.0.5", HostState.absent, false⟩
        (some ["10.0.0.1 web\n"]) =
      (some (["10.0.0.1 web\n"].filter isWellFormed),
       Except.ok ⟨false, "Hostname does not exist. No changes made."⟩) :=
  claim_C5 ⟨"db1", "10.0.0.5", HostState.absent, false⟩ ["10.0.0.1 web\n"]
    rfl rfl (by decide)

/-- Claim C6, counterexample to the claim as stated: for the request with
the empty hostname (no validation of parameters is performed), the second
application of the same state=present request reports changed=true, not
changed=false, because the appended line has a single token and is
dropped and re-appended on every run. -/
theorem claim_C6_counterexample :
    (runOnLines ⟨"", "1.1.1.1", HostState.present, false⟩
      ((runOnLines ⟨"", "1.1.1.1", HostState.present, false⟩ []).1)).2.changed = true := by
  decide

/-- Claim C6, amended: for a state=present request, not in check mode,
whose hostname and ip are nonempty and contain no whitespace characters,
applying the request twice is idempotent at the level of the line
sequence: the output of the second application is identical to the output
of the first, and the second application reports changed=false. -/
theorem claim_C6 (req : Request) (lines : List String)
    (hs : req.state = HostState.present) (hc : req.checkMode = false)
    (hh : req.hostname ≠ "") (hi : req.ip ≠ "")
    (hhw : ∀ c ∈ req.hostname.data, pyIsSpace c = false)
    (hiw : ∀ c ∈ req.ip.data, pyIsSpace c = false) :
    (applyRequest req (some lines)).1 = some ((runOnLines req lines).1) ∧
    applyRequest req (some ((runOnLines req lines).1)) =
      (some ((runOnLines req lines).1),
       Except.ok ⟨false, "IP / Hostname pair exist. No changes made."⟩) := by
  refine ⟨by rw [applyRequest_nocheck req lines hc], ?_⟩
  rw [applyRequest_nocheck req ((runOnLines req lines).1) hc,
    run_present_twice req lines hs hc hh hi hhw hiw]

/-- Witness for claim C6 at a concrete input. -/
theorem claim_C6_witness :
    (applyRequest ⟨"web", "10.0.0.1", HostState.present, false⟩ (some [])).1 =
      some ((runOnLines ⟨"web", "10.0.0.1", HostState.present, false⟩ []).1) ∧
    applyRequest ⟨"web", "10.0.0.1", HostState.present, false⟩
        (some ((runOnLines ⟨"web", "10.0.0.1", HostState.present, false⟩ []).1)) =
      (some ((runOnLines ⟨"web", "10.0.0.1", HostState.present, false⟩ []).1),
       Except.ok ⟨false, "IP / Hostname pair exist. No changes made."⟩) :=
  claim_C6 ⟨"web", "10.0.0.1", HostState.present, false⟩ []
    rfl rfl (by decide) (by decide) (by decide) (by decide)

/-- Claim C7 (confirmed): in check mode the file is never written (its
contents after the call equal its contents before), the computed result
is still returned, and on the state=present append path (hostname absent
from the file) the result is changed=true with message
"Hostname added with IP." even though the append to the line sequence is
skipped. -/
theorem claim_C7 (req : Request) (lines : List String)
    (hc : req.checkMode = true) :
    (applyRequest req (some lines)).1 = some lines ∧
    (applyRequest req (some lines)).2 = Except.ok (runOnLines req lines).2 ∧
    (req.state = HostState.present → lines.any (matchesHost req) = false →
      (runOnLines req lines).2 = ⟨true, "Hostname added with IP."⟩ ∧
      (runOnLines req lines).1 = lines.filterMap (lineOut req)) := by
  refine ⟨by rw [applyRequest_check req lines hc],
    by rw [applyRequest_check req lines hc], ?_⟩
  intro hs hnf
  rw [runOnLines,
    afterLoop_present_notfound_check req _ hs (by rw [loopPass_found]; exact hnf) hc,
    loopPass_updatedLines]
  exact ⟨rfl, rfl⟩

/-- Witness for claim C7 at a concrete input. -/
theorem claim_C7_witness :
    (applyRequest ⟨"web", "10.0.0.1", HostState.present, true⟩ (some [])).1 =
      some [] :=
  (claim_C7 ⟨"web", "10.0.0.1", HostState.present, true⟩ [] rfl).1

/-- Claim C8 (confirmed): a missing target file yields a failure with the
fixed message of the FileNotFoundError handler and the file system is
unchanged (no write occurs); any other exception raised during the write
yields a failure whose message includes the underlying error text. -/
theorem claim_C8 (req : Request) (hostname ip e : String) (st : HostState)
    (lines : List String) :
    applyRequest req none =
      (none, Except.error "The specified path does not exist.") ∧
    runWithWriteExc ⟨hostname, ip, st, false⟩ lines e =
      Except.error ("An unknown error occurred: " ++ e) ∧
    (∃ p, "An unknown error occurred: " ++ e = p ++ e) :=
  ⟨rfl, rfl, ⟨"An unknown error occurred: ", rfl⟩⟩

/-- Claim C9, counterexample to the claim as stated: for the request with
the empty hostname, the written output contains the appended line, which
itself splits into a single token, so not every output line has at least
two tokens. -/
theorem claim_C9_counterexample :
    "1.1.1.1\t\n" ∈ (runOnLines ⟨"", "1.1.1.1", HostState.present, false⟩ []).1 ∧
    (pySplit "1.1.1.1\t\n").length < 2 := by
  decide

/-- Claim C9, amended: in a non-check-mode run, provided the request's own
formatted ip-tab-hostname line splits into at least two tokens, every
line of the written output splits on whitespace into at least two tokens;
in particular every blank or single-token input line is removed by the
run. -/
theorem claim_C9 (req : Request) (lines : List String)
    (hc : req.checkMode = false)
    (hfmt : 2 ≤ (pySplit (fmtLine req)).length) :
    ∀ out, (applyRequest req (some lines)).1 = some out →
      ∀ l ∈ out, 2 ≤ (pySplit l).length := by
  intro out hout l hl
  rw [applyRequest_nocheck req lines hc] at hout
  have hfile : (runOnLines req lines).1 = out := by simpa using hout
  rw [← hfile] at hl
  rcases runOnLines_mem req lines l hl with ⟨l₀, _, hlo⟩ | hfm
  · rcases lineOut_some_wf req l₀ l hlo with h | h
    · exact h
    · rw [h]; exact hfmt
  · rw [hfm]; exact hfmt

/-- Witness for claim C9 at a concrete input. -/
theorem claim_C9_witness : 2 ≤ (pySplit "10.0.0.2 db\n").length :=
  claim_C9 ⟨"web", "10.0.0.1", HostState.present, false⟩ ["\n", "10.0.0.2 db\n"]
    rfl (by decide)
    ((runOnLines ⟨"web", "10.0.0.1", HostState.present, false⟩
      ["\n", "10.0.0.2 db\n"]).1)
    rfl "10.0.0.2 db\n" (by decide)

/-- Claim C10 (confirmed): when state=absent the whole outcome is
independent of the ip parameter: two requests differing only in ip give
the same file contents after the call and the same returned result, in
or out of check mode, over any file. -/
theorem claim_C10 (hostname ip1 ip2 : String) (check : Bool)
    (fs : Option (List String)) :
    applyRequest ⟨hostname, ip1, HostState.absent, check⟩ fs =
      applyRequest ⟨hostname, ip2, HostState.absent, check⟩ fs := by
  cases fs with
  | none => rfl
  | some lines =>
    simp only [applyRequest, runOnLines_absent_ip hostname ip1 ip2 check lines]

end ManageHosts
